import Mathlib

/-!
Verification of the feed-aggregation and notification fan-out subsystem of the
codegram backend (TypeScript/Express/Prisma/socket.io).

The embedding models:
* the JavaScript IEEE-754 double computations `Math.ceil(limit * 0.7)`,
  `Math.ceil(limit * 0.2)`, `Math.ceil(limit * 0.1)` used by `getFeed` to size
  the three per-kind candidate queries (doubles are modelled exactly as dyadic
  rationals with round-to-nearest-even at 53 significant bits; the inputs in
  scope are far away from the subnormal and overflow ranges, which are
  therefore not modelled);
* the Prisma store as in-memory lists of rows, with `findMany` as
  filter + stable sort by `createdAt` descending + `skip`/`take`;
* `getFeed` (feedController), `createNotification`,
  `markNotificationsAsRead` (notificationService), `emitToFollowers`
  (socket.ts), the socket.io room registry, and `updateBugStatus`
  (bugController), the latter with explicit failure oracles for the
  downstream notification path.
-/

/-! ## IEEE-754 double model (kernel-computable, over ℕ/ℤ) -/

/-- Fuel-driven base-2 logarithm on ℕ (structural recursion so that the kernel
can evaluate it; `Nat.log2` itself is defined by well-founded recursion). -/
def log2fuel : ℕ → ℕ → ℕ
  | 0, _ => 0
  | fuel+1, n => if 2 ≤ n then log2fuel fuel (n / 2) + 1 else 0

/-- Base-2 logarithm: `nlog2 n = ⌊log₂ n⌋` for `n ≥ 1`. -/
def nlog2 (n : ℕ) : ℕ := log2fuel n n

/-- Round-to-nearest, ties-to-even, of the nonnegative rational `a / b`,
computed with integer arithmetic. -/
def rheNat (a b : ℕ) : ℕ :=
  let q := a / b
  let r := a % b
  if 2 * r < b then q
  else if b < 2 * r then q + 1
  else if q % 2 = 0 then q else q + 1

/-- `⌊log₂ (a / b)⌋` for `a, b ≥ 1`, as an integer. -/
def ratLog2 (a b : ℕ) : ℤ :=
  if b ≤ a then (nlog2 (a / b) : ℤ)
  else
    let k := nlog2 (b / a)
    if b ≤ a * 2 ^ k then -(k : ℤ) else -((k : ℤ) + 1)

/-- The 53-bit mantissa of the double nearest to `a / b`: the rational is
scaled into `[2^52, 2^53)` and rounded to an integer half-to-even. -/
def mantissa (a b : ℕ) : ℕ :=
  let e := ratLog2 a b
  if e ≤ 52 then rheNat (a * 2 ^ ((52 - e).toNat)) b
  else rheNat a (b * 2 ^ ((e - 52).toNat))

/-- The rational value `m * 2^(e-52)` of a double with mantissa `m` and
binary exponent `e`. -/
def dyVal (m : ℕ) (e : ℤ) : ℚ := (m : ℚ) * 2 ^ (e - 52)

/-- The double nearest to the rational `a / b` (`a, b ≥ 1`), as an exact
rational. This models both parsing of a decimal literal and the correctly
rounded result of a floating-point multiplication. -/
def roundRat (a b : ℕ) : ℚ := dyVal (mantissa a b) (ratLog2 a b)

/-- `Math.ceil` of the double with mantissa `m` and exponent `e`, computed
with integer arithmetic. -/
def ceilDyadic (m : ℕ) (e : ℤ) : ℕ :=
  if 52 ≤ e then m * 2 ^ ((e - 52).toNat)
  else (m + 2 ^ ((52 - e).toNat) - 1) / 2 ^ ((52 - e).toNat)

/-- Mantissa of the JavaScript literal `0.7`. -/
def mant07 : ℕ := mantissa 7 10

/-- Binary exponent of the JavaScript literal `0.7`. -/
def exp07 : ℤ := ratLog2 7 10

/-- Mantissa of the JavaScript literal `0.2`. -/
def mant02 : ℕ := mantissa 2 10

/-- Binary exponent of the JavaScript literal `0.2`. -/
def exp02 : ℤ := ratLog2 2 10

/-- Mantissa of the JavaScript literal `0.1`. -/
def mant01 : ℕ := mantissa 1 10

/-- Binary exponent of the JavaScript literal `0.1`. -/
def exp01 : ℤ := ratLog2 1 10

/-- Denominator `2^(52 - e)` turning a double `m·2^(e-52)` into the exact
fraction `m / 2^(52-e)` (all three literals have `e < 52`). -/
def dyDen (e : ℤ) : ℕ := 2 ^ ((52 - e).toNat)

/-- `Math.ceil(limit * 0.7)` of `getFeed` (feedController.ts line 77):
the exact product `limit * 0.7` is rounded to the nearest double, whose
ceiling is taken. -/
def snippetTake (limit : ℕ) : ℕ :=
  ceilDyadic (mantissa (limit * mant07) (dyDen exp07))
    (ratLog2 (limit * mant07) (dyDen exp07))

/-- `Math.ceil(limit * 0.2)` of `getFeed` (feedController.ts line 88). -/
def docTake (limit : ℕ) : ℕ :=
  ceilDyadic (mantissa (limit * mant02) (dyDen exp02))
    (ratLog2 (limit * mant02) (dyDen exp02))

/-- `Math.ceil(limit * 0.1)` of `getFeed` (feedController.ts line 99). -/
def bugTake (limit : ℕ) : ℕ :=
  ceilDyadic (mantissa (limit * mant01) (dyDen exp01))
    (ratLog2 (limit * mant01) (dyDen exp01))

/-! ## Content store (Prisma rows as in-memory lists) -/

/-- A row of the `follows` table: a directed edge follower → following,
unique per ordered pair (`follows_followerId_followingId_key`). -/
structure FollowRow where
  followerId : String
  followingId : String
deriving DecidableEq

/-- A `snippets` row (fields used by the feed subsystem). -/
structure SnippetRow where
  id : String
  authorId : String
  isPublic : Bool
  createdAt : Int
deriving DecidableEq

/-- A `docs` row (fields used by the feed subsystem). -/
structure DocRow where
  id : String
  authorId : String
  isPublic : Bool
  createdAt : Int
deriving DecidableEq

/-- A `bugs` row (fields used by the feed subsystem). -/
structure BugRow where
  id : String
  authorId : String
  status : String
  createdAt : Int
  expiresAt : Int
deriving DecidableEq

/-- A `likes` row: the user who liked, and exactly one content reference. -/
structure LikeRow where
  userId : String
  snippetId : Option String
  docId : Option String
  bugId : Option String
deriving DecidableEq

/-- A `bookmarks` row. -/
structure BookmarkRow where
  userId : String
  snippetId : Option String
  docId : Option String
  bugId : Option String
deriving DecidableEq

/-- A `comments` row (only its content reference matters for counts). -/
structure CommentRow where
  userId : String
  snippetId : Option String
  docId : Option String
  bugId : Option String
deriving DecidableEq

/-- A `notifications` row. -/
structure NotificationRow where
  id : String
  recipientId : String
  senderId : String
  ntype : String
  snippetId : Option String
  docId : Option String
  bugId : Option String
  commentId : Option String
  read : Bool
deriving DecidableEq

/-- The queryable content store. -/
structure Store where
  follows : List FollowRow
  snippets : List SnippetRow
  docs : List DocRow
  bugs : List BugRow
  likes : List LikeRow
  bookmarks : List BookmarkRow
  comments : List CommentRow
deriving DecidableEq

/-- Stable sort, descending on an integer key: models both Prisma
`orderBy: { createdAt: 'desc' }` (ties in table order) and the ES2019+
stable `Array.prototype.sort` with comparator `b.createdAt - a.createdAt`. -/
def sortDesc {α : Type} (key : α → Int) (l : List α) : List α :=
  List.insertionSort (fun x y => key y ≤ key x) l

/-! ## Feed aggregator (feedController.ts, getFeed) -/

/-- The kind tag attached to each feed item (`type` field). -/
inductive ContentKind where
  | snippet
  | doc
  | bug
deriving DecidableEq

/-- The shape of one item of the feed response. Fields that a given kind
does not carry (and the personalized `isLiked` / `isBookmarked` flags, which
the public-fallback items omit) are `Option`s, `none` meaning the JSON key
is absent. -/
structure FeedItem where
  type : ContentKind
  id : String
  authorId : String
  createdAt : Int
  isPublic : Option Bool
  expiresAt : Option Int
  isLiked : Option Bool
  isBookmarked : Option Bool
  likesCount : ℕ
  commentsCount : ℕ
  bookmarksCount : ℕ
deriving DecidableEq

/-- The feed response body. -/
structure FeedResponse where
  data : List FeedItem
  total : ℕ
  page : ℕ
  hasMore : Bool
deriving DecidableEq

/-- Number of likes of a snippet (`_count.likes`). -/
def snippetLikeCount (st : Store) (sid : String) : ℕ :=
  (st.likes.filter (fun l => l.snippetId = some sid)).length

/-- Number of comments of a snippet (`_count.comments`). -/
def snippetCommentCount (st : Store) (sid : String) : ℕ :=
  (st.comments.filter (fun c => c.snippetId = some sid)).length

/-- Number of bookmarks of a snippet (`_count.bookmarks`). -/
def snippetBookmarkCount (st : Store) (sid : String) : ℕ :=
  (st.bookmarks.filter (fun b => b.snippetId = some sid)).length

/-- Number of likes of a doc. -/
def docLikeCount (st : Store) (did : String) : ℕ :=
  (st.likes.filter (fun l => l.docId = some did)).length

/-- Number of comments of a doc. -/
def docCommentCount (st : Store) (did : String) : ℕ :=
  (st.comments.filter (fun c => c.docId = some did)).length

/-- Number of bookmarks of a doc. -/
def docBookmarkCount (st : Store) (did : String) : ℕ :=
  (st.bookmarks.filter (fun b => b.docId = some did)).length

/-- Number of likes of a bug. -/
def bugLikeCount (st : Store) (bid : String) : ℕ :=
  (st.likes.filter (fun l => l.bugId = some bid)).length

/-- Number of comments of a bug. -/
def bugCommentCount (st : Store) (bid : String) : ℕ :=
  (st.comments.filter (fun c => c.bugId = some bid)).length

/-- Number of bookmarks of a bug. -/
def bugBookmarkCount (st : Store) (bid : String) : ℕ :=
  (st.bookmarks.filter (fun b => b.bugId = some bid)).length

/-- The viewer's own like membership for a snippet (sub-query
`likes: { where: { userId } }`, turned into `isLiked: likes.length > 0`). -/
def snippetIsLiked (st : Store) (userId sid : String) : Bool :=
  decide (0 < (st.likes.filter
    (fun l => l.userId = userId ∧ l.snippetId = some sid)).length)

/-- The viewer's own bookmark membership for a snippet. -/
def snippetIsBookmarked (st : Store) (userId sid : String) : Bool :=
  decide (0 < (st.bookmarks.filter
    (fun b => b.userId = userId ∧ b.snippetId = some sid)).length)

/-- The viewer's own like membership for a doc. -/
def docIsLiked (st : Store) (userId did : String) : Bool :=
  decide (0 < (st.likes.filter
    (fun l => l.userId = userId ∧ l.docId = some did)).length)

/-- The viewer's own bookmark membership for a doc. -/
def docIsBookmarked (st : Store) (userId did : String) : Bool :=
  decide (0 < (st.bookmarks.filter
    (fun b => b.userId = userId ∧ b.docId = some did)).length)

/-- The viewer's own like membership for a bug. -/
def bugIsLiked (st : Store) (userId bid : String) : Bool :=
  decide (0 < (st.likes.filter
    (fun l => l.userId = userId ∧ l.bugId = some bid)).length)

/-- The viewer's own bookmark membership for a bug. -/
def bugIsBookmarked (st : Store) (userId bid : String) : Bool :=
  decide (0 < (st.bookmarks.filter
    (fun b => b.userId = userId ∧ b.bugId = some bid)).length)

/-- `followingIds` of `getFeed`: the users the viewer follows, plus the
viewer (own content is included). -/
def followingIdsOf (st : Store) (userId : String) : List String :=
  ((st.follows.filter (fun f => f.followerId = userId)).map
    (fun f => f.followingId)) ++ [userId]

/-- The snippet candidate query of `getFeed`: snippets of followed authors
that are public, newest first, at most `Math.ceil(limit * 0.7)` rows. -/
def feedSnippetRows (st : Store) (userId : String) (limit : ℕ) :
    List SnippetRow :=
  ((sortDesc SnippetRow.createdAt
    (st.snippets.filter (fun s =>
      s.authorId ∈ followingIdsOf st userId ∧ s.isPublic))).take
    (snippetTake limit))

/-- The doc candidate query of `getFeed`: at most `Math.ceil(limit * 0.2)`
rows. -/
def feedDocRows (st : Store) (userId : String) (limit : ℕ) : List DocRow :=
  ((sortDesc DocRow.createdAt
    (st.docs.filter (fun d =>
      d.authorId ∈ followingIdsOf st userId ∧ d.isPublic))).take
    (docTake limit))

/-- The bug candidate query of `getFeed`: only bugs with
`expiresAt > now`, at most `Math.ceil(limit * 0.1)` rows. -/
def feedBugRows (st : Store) (userId : String) (limit : ℕ) (now : Int) :
    List BugRow :=
  ((sortDesc BugRow.createdAt
    (st.bugs.filter (fun b =>
      b.authorId ∈ followingIdsOf st userId ∧ now < b.expiresAt))).take
    (bugTake limit))

/-- A snippet row formatted as a personalized feed item. -/
def snippetToItem (st : Store) (userId : String) (s : SnippetRow) : FeedItem :=
  { type := ContentKind.snippet
    id := s.id
    authorId := s.authorId
    createdAt := s.createdAt
    isPublic := some s.isPublic
    expiresAt := none
    isLiked := some (snippetIsLiked st userId s.id)
    isBookmarked := some (snippetIsBookmarked st userId s.id)
    likesCount := snippetLikeCount st s.id
    commentsCount := snippetCommentCount st s.id
    bookmarksCount := snippetBookmarkCount st s.id }

/-- A doc row formatted as a personalized feed item. -/
def docToItem (st : Store) (userId : String) (d : DocRow) : FeedItem :=
  { type := ContentKind.doc
    id := d.id
    authorId := d.authorId
    createdAt := d.createdAt
    isPublic := some d.isPublic
    expiresAt := none
    isLiked := some (docIsLiked st userId d.id)
    isBookmarked := some (docIsBookmarked st userId d.id)
    likesCount := docLikeCount st d.id
    commentsCount := docCommentCount st d.id
    bookmarksCount := docBookmarkCount st d.id }

/-- A bug row formatted as a personalized feed item. -/
def bugToItem (st : Store) (userId : String) (b : BugRow) : FeedItem :=
  { type := ContentKind.bug
    id := b.id
    authorId := b.authorId
    createdAt := b.createdAt
    isPublic := none
    expiresAt := some b.expiresAt
    isLiked := some (bugIsLiked st userId b.id)
    isBookmarked := some (bugIsBookmarked st userId b.id)
    likesCount := bugLikeCount st b.id
    commentsCount := bugCommentCount st b.id
    bookmarksCount := bugBookmarkCount st b.id }

/-- The `feedItems` array of `getFeed`: the three tagged result sets
concatenated (snippets, then docs, then bugs), before sorting. -/
def mergedFeedItems (st : Store) (userId : String) (limit : ℕ) (now : Int) :
    List FeedItem :=
  (feedSnippetRows st userId limit).map (snippetToItem st userId) ++
  (feedDocRows st userId limit).map (docToItem st userId) ++
  (feedBugRows st userId limit now).map (bugToItem st userId)

/-- A public snippet row formatted as a fallback feed item: no
`isLiked` / `isBookmarked` keys. -/
def publicSnippetToItem (st : Store) (s : SnippetRow) : FeedItem :=
  { type := ContentKind.snippet
    id := s.id
    authorId := s.authorId
    createdAt := s.createdAt
    isPublic := some s.isPublic
    expiresAt := none
    isLiked := none
    isBookmarked := none
    likesCount := snippetLikeCount st s.id
    commentsCount := snippetCommentCount st s.id
    bookmarksCount := snippetBookmarkCount st s.id }

/-- The public-fallback query of `getFeed`: most recent public snippets
system-wide, unfiltered by the follow graph (`skip`/`take` paginated). -/
def fallbackItems (st : Store) (skip limit : ℕ) : List FeedItem :=
  (((sortDesc SnippetRow.createdAt
    (st.snippets.filter (fun s => s.isPublic))).drop skip).take limit).map
    (publicSnippetToItem st)

/-- `getFeed` (feedController.ts lines 50-179): resolve followed authors,
issue the three proportional candidate queries, merge, stable-sort by
`createdAt` descending, paginate the merged sequence, and fall back to the
public feed when the merged sequence is empty on page 1. -/
def getFeed (st : Store) (userId : String) (page limit : ℕ) (now : Int) :
    FeedResponse :=
  let skip := (page - 1) * limit
  let feedItems := mergedFeedItems st userId limit now
  let sorted := sortDesc FeedItem.createdAt feedItems
  let paginated := (sorted.drop skip).take limit
  if feedItems.length = 0 ∧ page = 1 then
    let publicItems := fallbackItems st skip limit
    { data := publicItems
      total := publicItems.length
      page := page
      hasMore := decide (publicItems.length = limit) }
  else
    { data := paginated
      total := sorted.length
      page := page
      hasMore := decide (skip + limit < sorted.length) }

/-- A store holding exactly one snippet, one doc and one bug, all authored
by `author`, with `viewer` following `author` (the feed-merge-ordering
scenario of the spec). -/
def c1Store (viewer author sid did bid : String) (t1 t2 t3 texp : Int) :
    Store :=
  { follows := [{ followerId := viewer, followingId := author }]
    snippets := [{ id := sid, authorId := author, isPublic := true,
                   createdAt := t1 }]
    docs := [{ id := did, authorId := author, isPublic := true,
               createdAt := t2 }]
    bugs := [{ id := bid, authorId := author, status := "OPEN",
               createdAt := t3, expiresAt := texp }]
    likes := []
    bookmarks := []
    comments := [] }

/-! ## Fan-out dispatcher (socket.ts, emitToFollowers) -/

/-- One socket emission: target room, event name, payload. -/
structure Emission (P : Type) where
  room : String
  event : String
  payload : P
deriving DecidableEq

/-- The emissions produced by a successful run of `emitToFollowers`
(socket.ts lines 153-172): one emission to each follower's private room,
then one to the author's own room. -/
def emitToFollowers {P : Type} (follows : List FollowRow)
    (authorId eventName : String) (payload : P) : List (Emission P) :=
  ((follows.filter (fun f => f.followingId = authorId)).map
    (fun f => { room := f.followerId, event := eventName, payload := payload })) ++
  [{ room := authorId, event := eventName, payload := payload }]

/-- Whether the follow graph holds an edge `c → a`. -/
def followsEdge (follows : List FollowRow) (c a : String) : Prop :=
  ∃ f ∈ follows, f.followerId = c ∧ f.followingId = a

instance (follows : List FollowRow) (c a : String) :
    Decidable (followsEdge follows c a) := by
  unfold followsEdge; infer_instance

/-- Failure oracle for the downstream (post-commit) effects: which of the
external operations fail when invoked. -/
structure FailureModel where
  followLookupFails : Bool
  notifCreateFails : Bool
  ioMissing : Bool
deriving DecidableEq

/-- The body of `emitToFollowers` without its `try/catch`: the follower
lookup and `getIO()` may fail, modelled as `Except`. -/
def emitToFollowersBody {P : Type} (fm : FailureModel) (follows : List FollowRow)
    (authorId eventName : String) (payload : P) :
    Except String (List (Emission P)) :=
  if fm.followLookupFails then Except.error "db error"
  else if fm.ioMissing then Except.error "socket io has not been initialized"
  else Except.ok (emitToFollowers follows authorId eventName payload)

/-- `emitToFollowers` as shipped: the whole body is wrapped in
`try { ... } catch (error) { console.error(...) }`, so a failure yields no
emissions and no exception. -/
def emitToFollowersCaught {P : Type} (fm : FailureModel)
    (follows : List FollowRow) (authorId eventName : String) (payload : P) :
    Except String (List (Emission P)) :=
  match emitToFollowersBody fm follows authorId eventName payload with
  | Except.ok es => Except.ok es
  | Except.error _ => Except.ok []

/-! ## Notification engine (notificationService.ts) -/

/-- The argument record of `createNotification`. -/
structure NotificationData where
  recipientId : String
  senderId : String
  ntype : String
  snippetId : Option String
  docId : Option String
  bugId : Option String
  commentId : Option String
deriving DecidableEq

/-- `createNotification` (notificationService.ts lines 20-46), successful
path: a no-op when `recipientId === senderId`; otherwise insert one row and
emit `new_notification` to the recipient's private room only. `newId` is
the id generated by the store for the inserted row. -/
def createNotification (rows : List NotificationRow) (data : NotificationData)
    (newId : String) : List NotificationRow × List (Emission String) :=
  if data.recipientId = data.senderId then (rows, [])
  else
    (rows ++ [{ id := newId
                recipientId := data.recipientId
                senderId := data.senderId
                ntype := data.ntype
                snippetId := data.snippetId
                docId := data.docId
                bugId := data.bugId
                commentId := data.commentId
                read := false }],
     [{ room := data.recipientId, event := "new_notification", payload := newId }])

/-- `createNotification` with its possible failures: the function body has
no `try/catch`, so a failing row insert or a missing socket server rejects
the returned promise. -/
def createNotificationX (fm : FailureModel) (rows : List NotificationRow)
    (data : NotificationData) (newId : String) :
    Except String (List NotificationRow × List (Emission String)) :=
  if data.recipientId = data.senderId then Except.ok (rows, [])
  else if fm.notifCreateFails then Except.error "db error"
  else if fm.ioMissing then Except.error "socket io has not been initialized"
  else Except.ok (createNotification rows data newId)

/-- The `where` predicate of `markNotificationsAsRead`
(notificationService.ts lines 100-109): always scoped to
`recipientId = userId`; additionally scoped to `id ∈ ids` when a non-empty
id list was passed. -/
def markMatches (userId : String) (ids : Option (List String))
    (n : NotificationRow) : Bool :=
  decide (n.recipientId = userId) &&
    (match ids with
     | none => true
     | some l => if l.length = 0 then true else decide (n.id ∈ l))

/-- The per-row effect of the `updateMany`: set `read := true` on matching
rows, leave the rest unchanged. -/
def markRow (userId : String) (ids : Option (List String))
    (n : NotificationRow) : NotificationRow :=
  if markMatches userId ids n then { n with read := true } else n

/-- `markNotificationsAsRead(userId, notificationIds?)`. -/
def markNotificationsAsRead (rows : List NotificationRow) (userId : String)
    (ids : Option (List String)) : List NotificationRow :=
  rows.map (markRow userId ids)

/-- `getUnreadNotificationCount(userId)`: count of unread rows of that
recipient. -/
def getUnreadNotificationCount (rows : List NotificationRow)
    (userId : String) : ℕ :=
  (rows.filter (fun n => n.recipientId = userId ∧ n.read = false)).length

/-! ## Subscription registry (socket.io room membership) -/

/-- Modelled from the spec: the Subscription Registry membership table —
the socket.io room machinery backing `socket.join` is a library, not part
of this repository's sources. Memberships are (connection id, room id)
pairs; socket.io keeps each socket's rooms in a JavaScript `Set`, so a join
inserts the pair only if it is not already present. -/
def joinRoom (members : List (String × String)) (conn room : String) :
    List (String × String) :=
  if (conn, room) ∈ members then members else (conn, room) :: members

/-- The `join-user-room` handler (socket.ts lines 101-106): joins only when
the supplied id is truthy (non-empty). -/
def handleJoinUserRoom (members : List (String × String))
    (conn userId : String) : List (String × String) :=
  if userId = "" then members else joinRoom members conn userId

/-- Modelled from the spec: `io.to(room).emit(event, payload)` of the
transport — one delivery per connection currently joined to the room. -/
def publishToRoom {P : Type} (members : List (String × String))
    (room event : String) (payload : P) : List (Emission P) :=
  (members.filter (fun m => m.2 = room)).map
    (fun m => { room := m.1, event := event, payload := payload })

/-! ## Bug controller (bugController.ts, updateBugStatus) -/

/-- The possible HTTP-level outcomes of `updateBugStatus`. The 500 arises
only via `asyncHandler`, which forwards a rejected promise to the error
middleware. -/
inductive BugStatusResp where
  | ok200 (bug : BugRow)
  | notFound404
  | gone410
  | forbidden403
  | serverError500
deriving DecidableEq

/-- `updateBugStatus` (bugController.ts lines 203-252) wrapped in
`asyncHandler`: look the bug up, reject missing/expired/foreign bugs,
commit the status update, then (guarded by `bug.authorId !== currentUserId`)
await `createNotification`; a rejection anywhere surfaces as a 500 through
`asyncHandler` after the update has committed. Returns the response, the
updated bug list, and the notification rows after the call. -/
def updateBugStatus (fm : FailureModel) (st : Store)
    (notifRows : List NotificationRow) (bugId currentUserId status : String)
    (now : Int) (newNotifId : String) :
    BugStatusResp × List BugRow × List NotificationRow :=
  match (st.bugs.filter (fun b => b.id = bugId)).head? with
  | none => (BugStatusResp.notFound404, st.bugs, notifRows)
  | some bug =>
    if bug.expiresAt < now then (BugStatusResp.gone410, st.bugs, notifRows)
    else if bug.authorId ≠ currentUserId then
      (BugStatusResp.forbidden403, st.bugs, notifRows)
    else
      let updated := { bug with status := status }
      let newBugs := st.bugs.map (fun b => if b.id = bugId then updated else b)
      if bug.authorId ≠ currentUserId then
        match createNotificationX fm notifRows
          { recipientId := bug.authorId
            senderId := currentUserId
            ntype := "BUG_STATUS_UPDATE"
            snippetId := none
            docId := none
            bugId := some bug.id
            commentId := none } newNotifId with
        | Except.ok (rows, _) => (BugStatusResp.ok200 updated, newBugs, rows)
        | Except.error _ => (BugStatusResp.serverError500, newBugs, notifRows)
      else (BugStatusResp.ok200 updated, newBugs, notifRows)

/-! ## Lemmas: base-2 logarithm -/

theorem log2fuel_spec (fuel : ℕ) : ∀ n : ℕ, n ≤ fuel → 1 ≤ n →
    2 ^ log2fuel fuel n ≤ n ∧ n < 2 ^ (log2fuel fuel n + 1) := by
  induction fuel with
  | zero => intro n hn h1; omega
  | succ fuel ih =>
    intro n hn h1
    rw [log2fuel]
    by_cases h2 : 2 ≤ n
    · rw [if_pos h2]
      have hd1 : 1 ≤ n / 2 := by omega
      have hd2 : n / 2 ≤ fuel := by omega
      obtain ⟨ih1, ih2⟩ := ih (n / 2) hd2 hd1
      constructor
      · calc 2 ^ (log2fuel fuel (n / 2) + 1)
            = 2 ^ log2fuel fuel (n / 2) * 2 := pow_succ 2 _
          _ ≤ (n / 2) * 2 := Nat.mul_le_mul_right 2 ih1
          _ ≤ n := by omega
      · calc n < (n / 2 + 1) * 2 := by omega
          _ ≤ 2 ^ (log2fuel fuel (n / 2) + 1) * 2 := by
              exact Nat.mul_le_mul_right 2 (by omega)
          _ = 2 ^ (log2fuel fuel (n / 2) + 1 + 1) := (pow_succ 2 _).symm
    · rw [if_neg h2]
      constructor
      · simpa using h1
      · simpa using by omega

theorem nlog2_le (n : ℕ) (h1 : 1 ≤ n) : 2 ^ nlog2 n ≤ n :=
  (log2fuel_spec n n le_rfl h1).1

theorem nlog2_lt (n : ℕ) (h1 : 1 ≤ n) : n < 2 ^ (nlog2 n + 1) :=
  (log2fuel_spec n n le_rfl h1).2

/-! ## Lemmas: integer round-half-to-even -/

theorem rheNat_le (a b G : ℕ) (hb : 1 ≤ b) (h : a ≤ G * b) : rheNat a b ≤ G := by
  have hdm : b * (a / b) + a % b = a := Nat.div_add_mod a b
  have hq : a / b ≤ G := by
    have h1 : a / b ≤ G * b / b := Nat.div_le_div_right h
    rwa [Nat.mul_div_cancel _ (by omega)] at h1
  have hstrict : a % b ≠ 0 → a / b < G := by
    intro hr
    by_contra hge
    have hEq : a / b = G := by omega
    rw [hEq] at hdm
    have hcomm : b * G = G * b := Nat.mul_comm b G
    omega
  simp only [rheNat]
  split_ifs with h1 h2 h3
  · exact hq
  · exact Nat.succ_le_of_lt (hstrict (by omega))
  · exact hq
  · exact Nat.succ_le_of_lt (hstrict (by omega))

theorem rheNat_ge (a b G : ℕ) (hb : 1 ≤ b) (h : G * b ≤ a) : G ≤ rheNat a b := by
  have hq : G ≤ a / b := (Nat.le_div_iff_mul_le (by omega)).2 h
  simp only [rheNat]
  split_ifs <;> omega

theorem rheNat_eq_of_near (a b M : ℕ) (hb : 1 ≤ b)
    (hlo : 2 * (M * b) < 2 * a + b) (hhi : 2 * a < 2 * (M * b) + b) :
    rheNat a b = M := by
  by_cases hcase : M * b ≤ a
  · have hub : a < (M + 1) * b := by
      have hc : (M + 1) * b = M * b + b := by ring
      omega
    have hq : a / b = M := Nat.div_eq_of_lt_le hcase hub
    have hdm : b * (a / b) + a % b = a := Nat.div_add_mod a b
    rw [hq] at hdm
    have hcomm : b * M = M * b := Nat.mul_comm b M
    simp only [rheNat]
    rw [if_pos (by omega)]
    exact hq
  · have hM1 : 1 ≤ M := by
      by_contra h0
      have hM0 : M = 0 := by omega
      apply hcase
      simp [hM0]
    have hexp : (M - 1) * b + b = M * b := by
      have h1 : M - 1 + 1 = M := by omega
      calc (M - 1) * b + b = (M - 1 + 1) * b := by ring
        _ = M * b := by rw [h1]
    have hlb : (M - 1) * b ≤ a := by omega
    have hub : a < (M - 1 + 1) * b := by
      have h1 : M - 1 + 1 = M := by omega
      rw [h1]
      omega
    have hq : a / b = M - 1 := Nat.div_eq_of_lt_le hlb hub
    have hdm : b * (a / b) + a % b = a := Nat.div_add_mod a b
    rw [hq] at hdm
    have hcomm : b * (M - 1) = (M - 1) * b := Nat.mul_comm _ _
    simp only [rheNat]
    rw [if_neg (by omega), if_pos (by omega), hq]
    omega

/-! ## Lemmas: floor log2 of a rational -/

theorem nat_lt_div_succ_mul (a b : ℕ) (hb : 1 ≤ b) : a < (a / b + 1) * b := by
  have hdm : b * (a / b) + a % b = a := Nat.div_add_mod a b
  have hmod : a % b < b := Nat.mod_lt _ (by omega)
  have hcomm : (a / b + 1) * b = b * (a / b) + b := by ring
  omega

theorem ratLog2_spec (a b : ℕ) (ha : 1 ≤ a) (hb : 1 ≤ b) :
    (2:ℚ) ^ ratLog2 a b ≤ (a : ℚ) / b ∧ (a : ℚ) / b < 2 ^ (ratLog2 a b + 1) := by
  have hbQ : (0:ℚ) < b := by exact_mod_cast hb
  rw [ratLog2]
  by_cases hba : b ≤ a
  · rw [if_pos hba]
    have hn1 : 1 ≤ a / b := (Nat.le_div_iff_mul_le (by omega)).2 (by omega)
    have hk1 : 2 ^ nlog2 (a / b) ≤ a / b := nlog2_le _ hn1
    have hk2 : a / b < 2 ^ (nlog2 (a / b) + 1) := nlog2_lt _ hn1
    have hmul : a / b * b ≤ a := Nat.div_mul_le_self a b
    have hlt : a < (a / b + 1) * b := nat_lt_div_succ_mul a b hb
    constructor
    · rw [zpow_natCast]
      rw [show ((2:ℚ) ^ nlog2 (a / b) = ((2 ^ nlog2 (a / b) : ℕ) : ℚ)) by push_cast; ring]
      rw [le_div_iff hbQ]
      have : (2 ^ nlog2 (a / b) : ℕ) * b ≤ a := le_trans (Nat.mul_le_mul_right b hk1) hmul
      exact_mod_cast this
    · rw [show ((nlog2 (a / b) : ℤ) + 1 = ((nlog2 (a / b) + 1 : ℕ) : ℤ)) by push_cast; ring]
      rw [zpow_natCast]
      rw [show ((2:ℚ) ^ (nlog2 (a / b) + 1) = ((2 ^ (nlog2 (a / b) + 1) : ℕ) : ℚ)) by push_cast; ring]
      rw [div_lt_iff hbQ]
      have : a < (2 ^ (nlog2 (a / b) + 1) : ℕ) * b :=
        lt_of_lt_of_le hlt (Nat.mul_le_mul_right b hk2)
      exact_mod_cast this
  · rw [if_neg hba]
    have hab : a < b := by omega
    have hn1 : 1 ≤ b / a := (Nat.le_div_iff_mul_le (by omega)).2 (by omega)
    have hk1 : 2 ^ nlog2 (b / a) ≤ b / a := nlog2_le _ hn1
    have hk2 : b / a < 2 ^ (nlog2 (b / a) + 1) := nlog2_lt _ hn1
    have hmul : b / a * a ≤ b := Nat.div_mul_le_self b a
    have hlt : b < (b / a + 1) * a := nat_lt_div_succ_mul b a ha
    have hup : b < 2 ^ (nlog2 (b / a) + 1) * a :=
      lt_of_lt_of_le hlt (Nat.mul_le_mul_right a hk2)
    have hdown : 2 ^ nlog2 (b / a) * a ≤ b := le_trans (Nat.mul_le_mul_right a hk1) hmul
    by_cases hc : b ≤ a * 2 ^ nlog2 (b / a)
    · rw [if_pos hc]
      have hkpos : 1 ≤ nlog2 (b / a) := by
        by_contra h0
        have hz : nlog2 (b / a) = 0 := by omega
        rw [hz] at hc
        simp at hc
        omega
      constructor
      · rw [show ((2:ℚ) ^ (-(nlog2 (b / a) : ℤ)) = 1 / ((2 ^ nlog2 (b / a) : ℕ) : ℚ)) by
          rw [zpow_neg, zpow_natCast, inv_eq_one_div]
          push_cast
          ring]
        rw [div_le_div_iff (by positivity) hbQ, one_mul]
        exact_mod_cast hc
      · rw [show (-(nlog2 (b / a) : ℤ) + 1 = -((nlog2 (b / a) - 1 : ℕ) : ℤ)) by
          push_cast [hkpos]
          ring]
        rw [show ((2:ℚ) ^ (-((nlog2 (b / a) - 1 : ℕ) : ℤ)) =
            1 / ((2 ^ (nlog2 (b / a) - 1) : ℕ) : ℚ)) by
          rw [zpow_neg, zpow_natCast, inv_eq_one_div]
          push_cast
          ring]
        rw [div_lt_div_iff hbQ (by positivity), one_mul]
        have hnat : a * 2 ^ (nlog2 (b / a) - 1) < b := by
          have hpow : 2 ^ (nlog2 (b / a) - 1) < 2 ^ nlog2 (b / a) :=
            Nat.pow_lt_pow_right (by omega) (by omega)
          calc a * 2 ^ (nlog2 (b / a) - 1) < a * 2 ^ nlog2 (b / a) := by
                have h1 : a * (2 ^ (nlog2 (b / a) - 1) + 1) ≤ a * 2 ^ nlog2 (b / a) :=
                  Nat.mul_le_mul_left a (by omega)
                have h2 : a * (2 ^ (nlog2 (b / a) - 1) + 1) =
                    a * 2 ^ (nlog2 (b / a) - 1) + a := by ring
                omega
            _ = 2 ^ nlog2 (b / a) * a := Nat.mul_comm _ _
            _ ≤ b := hdown
        exact_mod_cast hnat
    · rw [if_neg hc]
      constructor
      · rw [show (-((nlog2 (b / a) : ℤ) + 1) = -(((nlog2 (b / a) + 1 : ℕ)) : ℤ)) by push_cast; ring]
        rw [show ((2:ℚ) ^ (-((nlog2 (b / a) + 1 : ℕ) : ℤ)) =
            1 / ((2 ^ (nlog2 (b / a) + 1) : ℕ) : ℚ)) by
          rw [zpow_neg, zpow_natCast, inv_eq_one_div]
          push_cast
          ring]
        rw [div_le_div_iff (by positivity) hbQ, one_mul]
        have hnat : b ≤ a * 2 ^ (nlog2 (b / a) + 1) := by
          have : 2 ^ (nlog2 (b / a) + 1) * a = a * 2 ^ (nlog2 (b / a) + 1) := Nat.mul_comm _ _
          omega
        exact_mod_cast hnat
      · rw [show (-((nlog2 (b / a) : ℤ) + 1) + 1 = -((nlog2 (b / a) : ℕ) : ℤ)) by push_cast; ring]
        rw [show ((2:ℚ) ^ (-((nlog2 (b / a) : ℕ) : ℤ)) =
            1 / ((2 ^ nlog2 (b / a) : ℕ) : ℚ)) by
          rw [zpow_neg, zpow_natCast, inv_eq_one_div]
          push_cast
          ring]
        rw [div_lt_div_iff hbQ (by positivity), one_mul]
        have hnat : a * 2 ^ nlog2 (b / a) < b := by omega
        exact_mod_cast hnat

/-! ## Lemmas: correct rounding of rationals to doubles -/

theorem two_zpow_natCast (n : ℕ) : (2:ℚ) ^ ((n : ℤ)) = ((2 ^ n : ℕ) : ℚ) := by
  rw [zpow_natCast]
  push_cast
  ring

theorem cast_dyDen (e : ℤ) (he : e ≤ 52) :
    ((2 ^ ((52 - e).toNat) : ℕ) : ℚ) = 2 ^ ((52 : ℤ) - e) := by
  rw [← two_zpow_natCast, Int.toNat_of_nonneg (by omega)]

theorem ratLog2_le_52 (a b : ℕ) (ha : 1 ≤ a) (hb : 1 ≤ b)
    (h : (a : ℚ) / b ≤ ((2 ^ 52 : ℕ) : ℚ)) : ratLog2 a b ≤ 52 := by
  by_contra hgt
  have h53 : (53 : ℤ) ≤ ratLog2 a b := by omega
  have h1 : (2:ℚ) ^ ((53 : ℤ)) ≤ 2 ^ ratLog2 a b :=
    zpow_le_zpow_right₀ (by norm_num) h53
  have h2 := (ratLog2_spec a b ha hb).1
  have h3 : ((2 ^ 52 : ℕ) : ℚ) < (2:ℚ) ^ ((53 : ℤ)) := by
    rw [show ((53:ℤ) = ((53 : ℕ) : ℤ)) by norm_num, two_zpow_natCast]
    exact_mod_cast Nat.pow_lt_pow_right (by norm_num) (by norm_num)
  linarith

theorem mantissa_of_le_52 (a b : ℕ) (he : ratLog2 a b ≤ 52) :
    mantissa a b = rheNat (a * 2 ^ ((52 - ratLog2 a b).toNat)) b := by
  simp only [mantissa]
  rw [if_pos he]

theorem roundRat_le_intCast (a b : ℕ) (K : ℤ) (ha : 1 ≤ a) (hb : 1 ≤ b)
    (he : ratLog2 a b ≤ 52) (hK : 0 ≤ K) (h : (a : ℚ) / b ≤ (K : ℚ)) :
    roundRat a b ≤ (K : ℚ) := by
  have hbQ : (0:ℚ) < b := by exact_mod_cast hb
  have haN : a ≤ K.toNat * b := by
    have h1 : (a : ℚ) ≤ K * b := by
      rw [div_le_iff₀ hbQ] at h
      exact h
    have h2 : (a : ℤ) ≤ K * b := by exact_mod_cast h1
    have h3 : (a : ℤ) ≤ (K.toNat : ℤ) * b := by
      rw [Int.toNat_of_nonneg hK]
      exact h2
    exact_mod_cast h3
  have hprod : a * 2 ^ ((52 - ratLog2 a b).toNat) ≤
      (K.toNat * 2 ^ ((52 - ratLog2 a b).toNat)) * b := by
    calc a * 2 ^ ((52 - ratLog2 a b).toNat)
        ≤ (K.toNat * b) * 2 ^ ((52 - ratLog2 a b).toNat) :=
          Nat.mul_le_mul_right _ haN
      _ = (K.toNat * 2 ^ ((52 - ratLog2 a b).toNat)) * b := by ring
  have h1 : rheNat (a * 2 ^ ((52 - ratLog2 a b).toNat)) b ≤
      K.toNat * 2 ^ ((52 - ratLog2 a b).toNat) := rheNat_le _ _ _ hb hprod
  rw [roundRat, dyVal, mantissa_of_le_52 a b he]
  calc ((rheNat (a * 2 ^ ((52 - ratLog2 a b).toNat)) b : ℕ) : ℚ) *
        2 ^ (ratLog2 a b - 52)
      ≤ ((K.toNat * 2 ^ ((52 - ratLog2 a b).toNat) : ℕ) : ℚ) *
        2 ^ (ratLog2 a b - 52) := by
        apply mul_le_mul_of_nonneg_right _ (le_of_lt (zpow_pos (by norm_num) _))
        exact_mod_cast h1
    _ = (K : ℚ) * (((2 ^ ((52 - ratLog2 a b).toNat) : ℕ) : ℚ) *
        2 ^ (ratLog2 a b - 52)) := by
        have hKQ : ((K.toNat : ℕ) : ℚ) = (K : ℚ) := by
          exact_mod_cast Int.toNat_of_nonneg hK
        push_cast
        rw [hKQ]
        ring
    _ = (K : ℚ) := by
        rw [cast_dyDen _ he, ← zpow_add₀ (by norm_num : (2:ℚ) ≠ 0)]
        norm_num

theorem dy_cancel (e : ℤ) (he : e ≤ 52) :
    (2:ℚ) ^ ((52 - e).toNat) * 2 ^ (e - 52) = 1 := by
  rw [← zpow_natCast (2:ℚ) ((52 - e).toNat), Int.toNat_of_nonneg (by omega),
    ← zpow_add₀ (by norm_num : (2:ℚ) ≠ 0)]
  norm_num

theorem dy_half (e : ℤ) (he : e ≤ 52) :
    (2:ℚ) ^ ((52 - e).toNat) * 2 ^ (e - 53) = 1 / 2 := by
  rw [← zpow_natCast (2:ℚ) ((52 - e).toNat), Int.toNat_of_nonneg (by omega),
    ← zpow_add₀ (by norm_num : (2:ℚ) ≠ 0)]
  rw [show ((52 : ℤ) - e + (e - 53) = -1) by ring]
  norm_num

theorem roundRat_eq_natCast (a b K : ℕ) (ha : 1 ≤ a) (hb : 1 ≤ b)
    (he : ratLog2 a b ≤ 52) (hK : 1 ≤ K)
    (hlo : (K : ℚ) ≤ (a : ℚ) / b)
    (hhi : (a : ℚ) / b - K < 2 ^ (ratLog2 a b - 53)) :
    roundRat a b = (K : ℚ) := by
  have hbQ : (0:ℚ) < b := by exact_mod_cast hb
  have hDQ := cast_dyDen (ratLog2 a b) he
  have hKb : K * b ≤ a := by
    have h1 : (K : ℚ) * b ≤ a := by
      rw [le_div_iff₀ hbQ] at hlo
      exact hlo
    exact_mod_cast h1
  have hlow : 2 * ((K * 2 ^ ((52 - ratLog2 a b).toNat)) * b) <
      2 * (a * 2 ^ ((52 - ratLog2 a b).toNat)) + b := by
    have h1 : (K * 2 ^ ((52 - ratLog2 a b).toNat)) * b =
        (K * b) * 2 ^ ((52 - ratLog2 a b).toNat) := by ring
    have h2 : (K * b) * 2 ^ ((52 - ratLog2 a b).toNat) ≤
        a * 2 ^ ((52 - ratLog2 a b).toNat) := Nat.mul_le_mul_right _ hKb
    omega
  have hhigh : 2 * (a * 2 ^ ((52 - ratLog2 a b).toNat)) <
      2 * ((K * 2 ^ ((52 - ratLog2 a b).toNat)) * b) + b := by
    have hq : (a : ℚ) < K * b + b * 2 ^ (ratLog2 a b - 53) := by
      have h1 : (a : ℚ) / b < K + 2 ^ (ratLog2 a b - 53) := by linarith
      rw [div_lt_iff₀ hbQ] at h1
      calc (a : ℚ) < (K + 2 ^ (ratLog2 a b - 53)) * b := h1
        _ = K * b + b * 2 ^ (ratLog2 a b - 53) := by ring
    have hq2 : (2 * (a * 2 ^ ((52 - ratLog2 a b).toNat)) : ℚ) <
        2 * ((K * 2 ^ ((52 - ratLog2 a b).toNat)) * b) + b := by
      have hD53 := dy_half (ratLog2 a b) he
      push_cast
      nlinarith [hq, hD53, pow_pos (by norm_num : (0:ℚ) < 2) ((52 - ratLog2 a b).toNat)]
    exact_mod_cast hq2
  have hm : mantissa a b = K * 2 ^ ((52 - ratLog2 a b).toNat) := by
    rw [mantissa_of_le_52 a b he]
    exact rheNat_eq_of_near _ _ _ hb hlow hhigh
  rw [roundRat, dyVal, hm]
  push_cast
  rw [mul_assoc, dy_cancel (ratLog2 a b) he]
  ring

theorem ceilDyadic_le (m : ℕ) (e : ℤ) (he : e ≤ 52) (K : ℤ) (hK : 0 ≤ K)
    (h : dyVal m e ≤ (K : ℚ)) : (ceilDyadic m e : ℤ) ≤ K := by
  have hmK : m ≤ K.toNat * 2 ^ ((52 - e).toNat) := by
    have h1 : (m : ℚ) ≤ K * 2 ^ ((52 : ℤ) - e) := by
      rw [dyVal] at h
      have h2 : (m : ℚ) * 2 ^ (e - 52) * 2 ^ ((52 : ℤ) - e) ≤
          (K : ℚ) * 2 ^ ((52 : ℤ) - e) :=
        mul_le_mul_of_nonneg_right h (le_of_lt (zpow_pos (by norm_num) _))
      calc (m : ℚ) = (m : ℚ) * (2 ^ ((e : ℤ) - 52) * 2 ^ ((52 : ℤ) - e)) := by
            rw [← zpow_add₀ (by norm_num : (2:ℚ) ≠ 0)]
            norm_num
        _ = (m : ℚ) * 2 ^ (e - 52) * 2 ^ ((52 : ℤ) - e) := by ring
        _ ≤ (K : ℚ) * 2 ^ ((52 : ℤ) - e) := h2
    have h3 : (m : ℚ) ≤ (K.toNat : ℕ) * ((2 ^ ((52 - e).toNat) : ℕ) : ℚ) := by
      rw [cast_dyDen _ he]
      have hKQ : ((K.toNat : ℕ) : ℚ) = (K : ℚ) := by
        exact_mod_cast Int.toNat_of_nonneg hK
      rw [hKQ]
      exact h1
    exact_mod_cast h3
  have hfin : ceilDyadic m e ≤ K.toNat := by
    rw [ceilDyadic]
    by_cases h52 : 52 ≤ e
    · rw [if_pos h52]
      have he52 : e = 52 := by omega
      subst he52
      simpa using hmK
    · rw [if_neg h52]
      have hD1 : 1 ≤ 2 ^ ((52 - e).toNat) := Nat.one_le_two_pow
      rw [Nat.div_le_iff_le_mul_add_pred (by omega)]
      have hcomm : 2 ^ ((52 - e).toNat) * K.toNat =
          K.toNat * 2 ^ ((52 - e).toNat) := Nat.mul_comm _ _
      omega
  calc (ceilDyadic m e : ℤ) ≤ (K.toNat : ℤ) := by exact_mod_cast hfin
    _ = K := Int.toNat_of_nonneg hK

/-! ## Lemmas: the proportional feed quotas -/

theorem mant07_eval : mant07 = 6305039478318694 := rfl

theorem dyDen07_eval : dyDen exp07 = 2 ^ 53 := rfl

theorem mant02_eval : mant02 = 7205759403792794 := rfl

theorem dyDen02_eval : dyDen exp02 = 2 ^ 55 := rfl

theorem mant01_eval : mant01 = 7205759403792794 := rfl

theorem dyDen01_eval : dyDen exp01 = 2 ^ 56 := rfl

theorem snippetTake_le (L : ℕ) (h1 : 1 ≤ L) (h2 : L ≤ 2 ^ 32) :
    (snippetTake L : ℤ) ≤ ⌈(7 : ℚ) / 10 * L⌉ := by
  have hA1 : 1 ≤ L * mant07 := by
    calc 1 = 1 * 1 := rfl
      _ ≤ L * mant07 := Nat.mul_le_mul h1 (by rw [mant07_eval]; norm_num)
  have hB1 : 1 ≤ dyDen exp07 := by
    rw [dyDen07_eval]
    norm_num
  have hLQ : (1:ℚ) ≤ L := by exact_mod_cast h1
  have hL32 : (L : ℚ) ≤ 2 ^ 32 := by
    have := h2
    push_cast
    exact_mod_cast this
  have hq_le : ((L * mant07 : ℕ) : ℚ) / ((dyDen exp07 : ℕ) : ℚ) ≤ (7:ℚ)/10 * L := by
    rw [dyDen07_eval, mant07_eval]
    rw [div_le_iff₀ (by positivity)]
    push_cast
    nlinarith [hLQ]
  have hK0 : (0:ℚ) < (7:ℚ)/10 * L := by nlinarith [hLQ]
  have hKpos : 0 ≤ ⌈(7 : ℚ) / 10 * L⌉ := Int.ceil_nonneg (le_of_lt hK0)
  have hqK : ((L * mant07 : ℕ) : ℚ) / ((dyDen exp07 : ℕ) : ℚ) ≤
      ((⌈(7 : ℚ) / 10 * L⌉ : ℤ) : ℚ) :=
    le_trans hq_le (Int.le_ceil _)
  have he : ratLog2 (L * mant07) (dyDen exp07) ≤ 52 := by
    apply ratLog2_le_52 _ _ hA1 hB1
    apply le_trans hq_le
    push_cast
    nlinarith [hL32, hLQ]
  have hround := roundRat_le_intCast (L * mant07) (dyDen exp07)
    ⌈(7 : ℚ) / 10 * L⌉ hA1 hB1 he hKpos hqK
  exact ceilDyadic_le _ _ he _ hKpos hround

theorem bugTake_le (L : ℕ) (h1 : 1 ≤ L) (h2 : L ≤ 2 ^ 32) :
    (bugTake L : ℤ) ≤ ⌈(1 : ℚ) / 10 * L⌉ := by
  have hA1 : 1 ≤ L * mant01 := by
    calc 1 = 1 * 1 := rfl
      _ ≤ L * mant01 := Nat.mul_le_mul h1 (by rw [mant01_eval]; norm_num)
  have hB1 : 1 ≤ dyDen exp01 := by
    rw [dyDen01_eval]
    norm_num
  have hLQ : (1:ℚ) ≤ L := by exact_mod_cast h1
  have hL32 : (L : ℚ) ≤ 2 ^ 32 := by exact_mod_cast h2
  have hq_leL : ((L * mant01 : ℕ) : ℚ) / ((dyDen exp01 : ℕ) : ℚ) ≤ (L : ℚ) := by
    rw [dyDen01_eval, mant01_eval]
    rw [div_le_iff₀ (by positivity)]
    push_cast
    nlinarith [hLQ]
  have he : ratLog2 (L * mant01) (dyDen exp01) ≤ 52 := by
    apply ratLog2_le_52 _ _ hA1 hB1
    apply le_trans hq_leL
    push_cast
    nlinarith [hL32]
  by_cases hdvd : 10 ∣ L
  · obtain ⟨k, hk⟩ := hdvd
    have hk1 : 1 ≤ k := by omega
    have hkQ : (1:ℚ) ≤ k := by exact_mod_cast hk1
    have hKeq : ⌈(1 : ℚ) / 10 * L⌉ = (k : ℤ) := by
      rw [hk]
      push_cast
      rw [show ((1:ℚ)/10 * (10 * k) = (k:ℚ)) by ring]
      exact_mod_cast Int.ceil_intCast (k : ℤ)
    rw [hKeq]
    have hlo : ((k : ℕ) : ℚ) ≤ ((L * mant01 : ℕ) : ℚ) / ((dyDen exp01 : ℕ) : ℚ) := by
      rw [dyDen01_eval, mant01_eval, hk]
      rw [le_div_iff₀ (by positivity)]
      push_cast
      nlinarith [hkQ]
    -- the distance above k is k * 2^(-54), below half an ulp
    have hf1 : 2 ^ nlog2 k ≤ k := nlog2_le k hk1
    have hf2 : k < 2 ^ (nlog2 k + 1) := nlog2_lt k hk1
    have hfe : (nlog2 k : ℤ) ≤ ratLog2 (L * mant01) (dyDen exp01) := by
      by_contra hlt
      have hef : ratLog2 (L * mant01) (dyDen exp01) + 1 ≤ (nlog2 k : ℤ) := by omega
      have hspec := (ratLog2_spec (L * mant01) (dyDen exp01) hA1 hB1).2
      have hup : (2:ℚ) ^ (ratLog2 (L * mant01) (dyDen exp01) + 1) ≤
          2 ^ ((nlog2 k : ℕ) : ℤ) := zpow_le_zpow_right₀ (by norm_num) hef
      rw [two_zpow_natCast] at hup
      have hk_le : ((2 ^ nlog2 k : ℕ) : ℚ) ≤ (k : ℚ) := by exact_mod_cast hf1
      linarith
    have hhi : ((L * mant01 : ℕ) : ℚ) / ((dyDen exp01 : ℕ) : ℚ) - (k : ℕ) <
        2 ^ (ratLog2 (L * mant01) (dyDen exp01) - 53) := by
      have hgap : ((L * mant01 : ℕ) : ℚ) / ((dyDen exp01 : ℕ) : ℚ) - (k : ℕ) =
          4 * k / 2 ^ 56 := by
        rw [dyDen01_eval, mant01_eval, hk]
        push_cast
        rw [div_sub' _ _ _ (by positivity)]
        congr 1
        ring_nf
      rw [hgap]
      have hstep1 : (4 * k : ℚ) / 2 ^ 56 < 2 ^ (((nlog2 k : ℕ) : ℤ) - 53) := by
        rw [div_lt_iff₀ (by positivity)]
        have hrhs : (2:ℚ) ^ (((nlog2 k : ℕ) : ℤ) - 53) * 2 ^ (56 : ℕ) =
            ((2 ^ (nlog2 k + 3) : ℕ) : ℚ) := by
          rw [show ((2:ℚ) ^ (56 : ℕ) = (2:ℚ) ^ ((56 : ℕ) : ℤ)) by
            rw [zpow_natCast]]
          rw [← zpow_add₀ (by norm_num : (2:ℚ) ≠ 0), ← two_zpow_natCast]
          congr 1
          push_cast
          ring
        rw [hrhs]
        have hnat : 4 * k < 2 ^ (nlog2 k + 3) := by
          have : 2 ^ (nlog2 k + 3) = 4 * 2 ^ (nlog2 k + 1) := by ring
          omega
        exact_mod_cast hnat
      apply lt_of_lt_of_le hstep1
      exact zpow_le_zpow_right₀ (by norm_num) (by omega)
    have heq := roundRat_eq_natCast (L * mant01) (dyDen exp01) k hA1 hB1 he hk1
      hlo hhi
    have hvk : dyVal (mantissa (L * mant01) (dyDen exp01))
        (ratLog2 (L * mant01) (dyDen exp01)) ≤ (((k : ℤ)) : ℚ) := by
      rw [show (dyVal (mantissa (L * mant01) (dyDen exp01))
          (ratLog2 (L * mant01) (dyDen exp01)) = roundRat (L * mant01) (dyDen exp01))
          from rfl, heq]
      push_cast
      exact le_refl _
    exact ceilDyadic_le _ _ he (k : ℤ) (by positivity) hvk
  · have hK0 : (0:ℚ) < (1:ℚ)/10 * L := by nlinarith [hLQ]
    have hKpos : 0 ≤ ⌈(1 : ℚ) / 10 * L⌉ := Int.ceil_nonneg (le_of_lt hK0)
    have h10K : (L : ℤ) + 1 ≤ 10 * ⌈(1 : ℚ) / 10 * L⌉ := by
      have hle : (1:ℚ)/10 * L ≤ ((⌈(1 : ℚ) / 10 * L⌉ : ℤ) : ℚ) := Int.le_ceil _
      have hLle : (L : ℤ) ≤ 10 * ⌈(1 : ℚ) / 10 * L⌉ := by
        have : (L : ℚ) ≤ 10 * ((⌈(1 : ℚ) / 10 * L⌉ : ℤ) : ℚ) := by linarith
        exact_mod_cast this
      have hne : (L : ℤ) ≠ 10 * ⌈(1 : ℚ) / 10 * L⌉ := by
        intro heq
        apply hdvd
        have : ((10 : ℕ) : ℤ) ∣ (L : ℤ) := ⟨⌈(1 : ℚ) / 10 * L⌉, heq⟩
        exact_mod_cast this
      omega
    have hqK : ((L * mant01 : ℕ) : ℚ) / ((dyDen exp01 : ℕ) : ℚ) ≤
        ((⌈(1 : ℚ) / 10 * L⌉ : ℤ) : ℚ) := by
      have hstep : ((L * mant01 : ℕ) : ℚ) / ((dyDen exp01 : ℕ) : ℚ) <
          ((L : ℚ) + 1) / 10 := by
        rw [dyDen01_eval, mant01_eval]
        rw [div_lt_div_iff₀ (by positivity) (by norm_num)]
        push_cast
        nlinarith [hL32, hLQ]
      have hKQ : ((L : ℚ) + 1) / 10 ≤ ((⌈(1 : ℚ) / 10 * L⌉ : ℤ) : ℚ) := by
        have h10 : ((L : ℚ) + 1) ≤ 10 * ((⌈(1 : ℚ) / 10 * L⌉ : ℤ) : ℚ) := by
          exact_mod_cast h10K
        linarith
      linarith
    have hround := roundRat_le_intCast (L * mant01) (dyDen exp01)
      ⌈(1 : ℚ) / 10 * L⌉ hA1 hB1 he hKpos hqK
    exact ceilDyadic_le _ _ he _ hKpos hround

theorem docTake_le (L : ℕ) (h1 : 1 ≤ L) (h2 : L ≤ 2 ^ 32) :
    (docTake L : ℤ) ≤ ⌈(2 : ℚ) / 10 * L⌉ := by
  have hA1 : 1 ≤ L * mant02 := by
    calc 1 = 1 * 1 := rfl
      _ ≤ L * mant02 := Nat.mul_le_mul h1 (by rw [mant02_eval]; norm_num)
  have hB1 : 1 ≤ dyDen exp02 := by
    rw [dyDen02_eval]
    norm_num
  have hLQ : (1:ℚ) ≤ L := by exact_mod_cast h1
  have hL32 : (L : ℚ) ≤ 2 ^ 32 := by exact_mod_cast h2
  have hq_leL : ((L * mant02 : ℕ) : ℚ) / ((dyDen exp02 : ℕ) : ℚ) ≤ (L : ℚ) := by
    rw [dyDen02_eval, mant02_eval]
    rw [div_le_iff₀ (by positivity)]
    push_cast
    nlinarith [hLQ]
  have he : ratLog2 (L * mant02) (dyDen exp02) ≤ 52 := by
    apply ratLog2_le_52 _ _ hA1 hB1
    apply le_trans hq_leL
    push_cast
    nlinarith [hL32]
  by_cases hdvd : 5 ∣ L
  · obtain ⟨k, hk⟩ := hdvd
    have hk1 : 1 ≤ k := by omega
    have hkQ : (1:ℚ) ≤ k := by exact_mod_cast hk1
    have hKeq : ⌈(2 : ℚ) / 10 * L⌉ = (k : ℤ) := by
      rw [hk]
      push_cast
      rw [show ((2:ℚ)/10 * (5 * k) = (k:ℚ)) by ring]
      exact_mod_cast Int.ceil_intCast (k : ℤ)
    rw [hKeq]
    have hlo : ((k : ℕ) : ℚ) ≤ ((L * mant02 : ℕ) : ℚ) / ((dyDen exp02 : ℕ) : ℚ) := by
      rw [dyDen02_eval, mant02_eval, hk]
      rw [le_div_iff₀ (by positivity)]
      push_cast
      nlinarith [hkQ]
    have hf1 : 2 ^ nlog2 k ≤ k := nlog2_le k hk1
    have hf2 : k < 2 ^ (nlog2 k + 1) := nlog2_lt k hk1
    have hfe : (nlog2 k : ℤ) ≤ ratLog2 (L * mant02) (dyDen exp02) := by
      by_contra hlt
      have hef : ratLog2 (L * mant02) (dyDen exp02) + 1 ≤ (nlog2 k : ℤ) := by omega
      have hspec := (ratLog2_spec (L * mant02) (dyDen exp02) hA1 hB1).2
      have hup : (2:ℚ) ^ (ratLog2 (L * mant02) (dyDen exp02) + 1) ≤
          2 ^ ((nlog2 k : ℕ) : ℤ) := zpow_le_zpow_right₀ (by norm_num) hef
      rw [two_zpow_natCast] at hup
      have hk_le : ((2 ^ nlog2 k : ℕ) : ℚ) ≤ (k : ℚ) := by exact_mod_cast hf1
      linarith
    have hhi : ((L * mant02 : ℕ) : ℚ) / ((dyDen exp02 : ℕ) : ℚ) - (k : ℕ) <
        2 ^ (ratLog2 (L * mant02) (dyDen exp02) - 53) := by
      have hgap : ((L * mant02 : ℕ) : ℚ) / ((dyDen exp02 : ℕ) : ℚ) - (k : ℕ) =
          2 * k / 2 ^ 55 := by
        rw [dyDen02_eval, mant02_eval, hk]
        push_cast
        rw [div_sub' _ _ _ (by positivity)]
        congr 1
        ring_nf
      rw [hgap]
      have hstep1 : (2 * k : ℚ) / 2 ^ 55 < 2 ^ (((nlog2 k : ℕ) : ℤ) - 53) := by
        rw [div_lt_iff₀ (by positivity)]
        have hrhs : (2:ℚ) ^ (((nlog2 k : ℕ) : ℤ) - 53) * 2 ^ (55 : ℕ) =
            ((2 ^ (nlog2 k + 2) : ℕ) : ℚ) := by
          rw [show ((2:ℚ) ^ (55 : ℕ) = (2:ℚ) ^ ((55 : ℕ) : ℤ)) by
            rw [zpow_natCast]]
          rw [← zpow_add₀ (by norm_num : (2:ℚ) ≠ 0), ← two_zpow_natCast]
          congr 1
          push_cast
          ring
        rw [hrhs]
        have hnat : 2 * k < 2 ^ (nlog2 k + 2) := by
          have : 2 ^ (nlog2 k + 2) = 2 * 2 ^ (nlog2 k + 1) := by ring
          omega
        exact_mod_cast hnat
      apply lt_of_lt_of_le hstep1
      exact zpow_le_zpow_right₀ (by norm_num) (by omega)
    have heq := roundRat_eq_natCast (L * mant02) (dyDen exp02) k hA1 hB1 he hk1
      hlo hhi
    have hvk : dyVal (mantissa (L * mant02) (dyDen exp02))
        (ratLog2 (L * mant02) (dyDen exp02)) ≤ (((k : ℤ)) : ℚ) := by
      rw [show (dyVal (mantissa (L * mant02) (dyDen exp02))
          (ratLog2 (L * mant02) (dyDen exp02)) = roundRat (L * mant02) (dyDen exp02))
          from rfl, heq]
      push_cast
      exact le_refl _
    exact ceilDyadic_le _ _ he (k : ℤ) (by positivity) hvk
  · have hK0 : (0:ℚ) < (2:ℚ)/10 * L := by nlinarith [hLQ]
    have hKpos : 0 ≤ ⌈(2 : ℚ) / 10 * L⌉ := Int.ceil_nonneg (le_of_lt hK0)
    have h5K : (L : ℤ) + 1 ≤ 5 * ⌈(2 : ℚ) / 10 * L⌉ := by
      have hle : (2:ℚ)/10 * L ≤ ((⌈(2 : ℚ) / 10 * L⌉ : ℤ) : ℚ) := Int.le_ceil _
      have hLle : (L : ℤ) ≤ 5 * ⌈(2 : ℚ) / 10 * L⌉ := by
        have : (L : ℚ) ≤ 5 * ((⌈(2 : ℚ) / 10 * L⌉ : ℤ) : ℚ) := by linarith
        exact_mod_cast this
      have hne : (L : ℤ) ≠ 5 * ⌈(2 : ℚ) / 10 * L⌉ := by
        intro heq
        apply hdvd
        have : ((5 : ℕ) : ℤ) ∣ (L : ℤ) := ⟨⌈(2 : ℚ) / 10 * L⌉, heq⟩
        exact_mod_cast this
      omega
    have hqK : ((L * mant02 : ℕ) : ℚ) / ((dyDen exp02 : ℕ) : ℚ) ≤
        ((⌈(2 : ℚ) / 10 * L⌉ : ℤ) : ℚ) := by
      have hstep : ((L * mant02 : ℕ) : ℚ) / ((dyDen exp02 : ℕ) : ℚ) <
          ((L : ℚ) + 1) / 5 := by
        rw [dyDen02_eval, mant02_eval]
        rw [div_lt_div_iff₀ (by positivity) (by norm_num)]
        push_cast
        nlinarith [hL32, hLQ]
      have hKQ : ((L : ℚ) + 1) / 5 ≤ ((⌈(2 : ℚ) / 10 * L⌉ : ℤ) : ℚ) := by
        have h5 : ((L : ℚ) + 1) ≤ 5 * ((⌈(2 : ℚ) / 10 * L⌉ : ℤ) : ℚ) := by
          exact_mod_cast h5K
        linarith
      linarith
    have hround := roundRat_le_intCast (L * mant02) (dyDen exp02)
      ⌈(2 : ℚ) / 10 * L⌉ hA1 hB1 he hKpos hqK
    exact ceilDyadic_le _ _ he _ hKpos hround

theorem snippetTake_ten : snippetTake 10 = 7 := rfl

theorem docTake_ten : docTake 10 = 2 := rfl

theorem bugTake_ten : bugTake 10 = 1 := rfl

/-! ## Lemmas: sorting and merging -/

theorem sortDesc_perm {α : Type} (key : α → Int) (l : List α) :
    (sortDesc key l).Perm l :=
  List.perm_insertionSort _ l

theorem sortDesc_length {α : Type} (key : α → Int) (l : List α) :
    (sortDesc key l).length = l.length :=
  (sortDesc_perm key l).length_eq

theorem mem_sortDesc {α : Type} (key : α → Int) (l : List α) (x : α) :
    x ∈ sortDesc key l ↔ x ∈ l :=
  (sortDesc_perm key l).mem_iff

theorem mergedFeedItems_length_le (st : Store) (userId : String) (limit : ℕ)
    (now : Int) :
    (mergedFeedItems st userId limit now).length ≤
      snippetTake limit + docTake limit + bugTake limit := by
  rw [mergedFeedItems]
  rw [List.length_append, List.length_append, List.length_map, List.length_map,
    List.length_map]
  have h1 : (feedSnippetRows st userId limit).length ≤ snippetTake limit :=
    List.length_take_le _ _
  have h2 : (feedDocRows st userId limit).length ≤ docTake limit :=
    List.length_take_le _ _
  have h3 : (feedBugRows st userId limit now).length ≤ bugTake limit :=
    List.length_take_le _ _
  omega

/-! ## Lemmas: emission counting -/

theorem filter_map_room_length {α P : Type} (l : List α) (roomOf : α → String)
    (mk : α → Emission P) (hmk : ∀ x, (mk x).room = roomOf x) (c : String) :
    ((l.map mk).filter (fun e => e.room = c)).length =
    (l.filter (fun x => roomOf x = c)).length := by
  induction l with
  | nil => simp
  | cons x xs ih =>
    by_cases h : roomOf x = c
    · simp only [List.map_cons, List.filter_cons]
      rw [hmk x]
      simp [h, ih]
    · simp only [List.map_cons, List.filter_cons]
      rw [hmk x]
      simp [h, ih]

theorem length_filter_nodup_key {α β : Type} [DecidableEq β] (l : List α)
    (k : α → β) (p : α → Bool) (v : β) (hnd : (l.map k).Nodup)
    (hp : ∀ x, p x = true → k x = v) :
    (l.filter p).length = if (∃ x ∈ l, p x = true) then 1 else 0 := by
  induction l with
  | nil => simp
  | cons x xs ih =>
    rw [List.map_cons, List.nodup_cons] at hnd
    obtain ⟨hx, hxs⟩ := hnd
    by_cases hpx : p x = true
    · rw [List.filter_cons, if_pos hpx]
      have htail : xs.filter p = [] := by
        rw [List.filter_eq_nil_iff]
        intro y hy hpy
        exfalso
        apply hx
        have h1 : k x = k y := by rw [hp x hpx, hp y hpy]
        rw [h1]
        exact List.mem_map_of_mem k hy
      rw [htail]
      rw [if_pos ⟨x, List.mem_cons_self x xs, hpx⟩]
      rfl
    · rw [List.filter_cons, if_neg hpx, ih hxs]
      by_cases hex : ∃ y ∈ xs, p y = true
      · obtain ⟨y, hy, hpy⟩ := hex
        rw [if_pos ⟨y, hy, hpy⟩, if_pos ⟨y, List.mem_cons_of_mem x hy, hpy⟩]
      · rw [if_neg hex, if_neg]
        intro hcons
        obtain ⟨y, hy, hpy⟩ := hcons
        rcases List.mem_cons.1 hy with h | h
        · subst h
          exact hpx hpy
        · exact hex ⟨y, h, hpy⟩

/-- C2: when `recipientId = senderId`, `createNotification` writes no row
and publishes nothing: the store is returned unchanged and the emission
list is empty. -/
theorem c2_self_notification_noop (rows : List NotificationRow)
    (data : NotificationData) (newId : String)
    (h : data.recipientId = data.senderId) :
    createNotification rows data newId = (rows, []) := by
  rw [createNotification, if_pos h]

theorem c2_self_notification_noop_witness :
    createNotification []
      { recipientId := "u1", senderId := "u1", ntype := "LIKE",
        snippetId := none, docId := none, bugId := none, commentId := none }
      "n1" = ([], []) :=
  c2_self_notification_noop [] _ "n1" rfl

/-- C7: `markNotificationsAsRead`: with `ids` omitted or empty every
notification of the user is marked read; with a non-empty list only the
listed ids owned by the user are marked; a row of a different recipient is
never changed, even when its id is listed. -/
theorem c7_mark_read_scoping (rows : List NotificationRow) (userId : String)
    (ids : Option (List String)) :
    (markNotificationsAsRead rows userId none =
      rows.map (fun n => if n.recipientId = userId
        then { n with read := true } else n)) ∧
    (markNotificationsAsRead rows userId (some []) =
      rows.map (fun n => if n.recipientId = userId
        then { n with read := true } else n)) ∧
    (∀ l : List String, l ≠ [] →
      markNotificationsAsRead rows userId (some l) =
      rows.map (fun n => if n.recipientId = userId ∧ n.id ∈ l
        then { n with read := true } else n)) ∧
    (∀ n : NotificationRow, n.recipientId ≠ userId →
      markRow userId ids n = n) := by
  refine ⟨?_, ?_, ?_, ?_⟩
  · apply List.map_congr_left
    intro n _
    simp [markRow, markMatches]
  · apply List.map_congr_left
    intro n _
    simp [markRow, markMatches]
  · intro l hl
    apply List.map_congr_left
    intro n _
    have hlen : l.length ≠ 0 := by
      intro h0
      exact hl (List.length_eq_zero.1 h0)
    simp [markRow, markMatches, hlen, Bool.and_eq_true, decide_eq_true_eq]
  · intro n hn
    simp [markRow, markMatches, hn]

theorem c7_mark_read_scoping_witness :
    markRow "userA" (some ["idB"])
      { id := "idB", recipientId := "userB", senderId := "userC",
        ntype := "LIKE", snippetId := none, docId := none, bugId := none,
        commentId := none, read := false } =
      { id := "idB", recipientId := "userB", senderId := "userC",
        ntype := "LIKE", snippetId := none, docId := none, bugId := none,
        commentId := none, read := false } :=
  (c7_mark_read_scoping [] "userA" (some ["idB"])).2.2.2 _ (by decide)

theorem joinRoom_self_mem (members : List (String × String))
    (conn room : String) : (conn, room) ∈ joinRoom members conn room := by
  by_cases h : (conn, room) ∈ members
  · rw [joinRoom, if_pos h]
    exact h
  · rw [joinRoom, if_neg h]
    exact List.mem_cons_self _ _

theorem joinRoom_nodup (members : List (String × String)) (conn room : String)
    (hnd : members.Nodup) : (joinRoom members conn room).Nodup := by
  by_cases h : (conn, room) ∈ members
  · rw [joinRoom, if_pos h]
    exact hnd
  · rw [joinRoom, if_neg h]
    exact List.nodup_cons.2 ⟨h, hnd⟩

/-- C9: joining a room twice equals joining it once (socket.io rooms form a
set), and a publish to that room after the double join delivers exactly one
message to the connection. -/
theorem c9_join_idempotent (members : List (String × String))
    (conn topic : String) (P : Type) (ev : String) (p : P)
    (hnd : members.Nodup) :
    joinRoom (joinRoom members conn topic) conn topic =
      joinRoom members conn topic ∧
    ((publishToRoom (joinRoom (joinRoom members conn topic) conn topic)
        topic ev p).filter (fun e => e.room = conn)).length = 1 := by
  have hmem : (conn, topic) ∈ joinRoom members conn topic :=
    joinRoom_self_mem members conn topic
  have hidem : joinRoom (joinRoom members conn topic) conn topic =
      joinRoom members conn topic := by
    by_cases hin : (conn, topic) ∈ members
    · simp [joinRoom, hin]
    · simp [joinRoom, hin]
  refine ⟨hidem, ?_⟩
  rw [hidem]
  rw [publishToRoom]
  rw [filter_map_room_length _ (fun m => m.1) _ (fun x => rfl) conn]
  have hnd2 : (joinRoom members conn topic).Nodup :=
    joinRoom_nodup members conn topic hnd
  rw [List.filter_filter]
  have hcongr : ∀ m ∈ joinRoom members conn topic,
      (decide (m.1 = conn) && decide (m.2 = topic)) =
      decide (m = (conn, topic)) := by
    intro m _
    rcases m with ⟨a, b⟩
    by_cases h1 : a = conn <;> by_cases h2 : b = topic <;>
      simp [h1, h2, Prod.ext_iff]
  rw [List.filter_congr hcongr]
  rw [length_filter_nodup_key (joinRoom members conn topic) (fun m => m) _
    (conn, topic) (by simpa using hnd2) (fun x hx => by simpa using hx)]
  rw [if_pos ⟨(conn, topic), hmem, by simp⟩]

theorem c9_join_idempotent_witness :
    joinRoom (joinRoom [("c0", "t0")] "c1" "t1") "c1" "t1" =
      joinRoom [("c0", "t0")] "c1" "t1" ∧
    ((publishToRoom (joinRoom (joinRoom [("c0", "t0")] "c1" "t1") "c1" "t1")
        "t1" "ev" (0 : ℕ)).filter (fun e => e.room = "c1")).length = 1 :=
  c9_join_idempotent [("c0", "t0")] "c1" "t1" ℕ "ev" 0 (by decide)

/-- C4: with no self-follow edge, `emitToFollowers` sends the event exactly
once to each follower of the author and exactly once to the author, and to
nobody else: the number of emissions to a channel `c` is one for the author,
one for each user with a follow edge `c → author` (unique per pair), and
zero otherwise. -/
theorem c4_fanout_audience (follows : List FollowRow)
    (authorId eventName : String) (P : Type) (payload : P)
    (hnd : (follows.map (fun f => (f.followerId, f.followingId))).Nodup)
    (hnoself : ¬ followsEdge follows authorId authorId) :
    (∀ c : String,
      ((emitToFollowers follows authorId eventName payload).filter
        (fun e => e.room = c)).length =
      (if followsEdge follows c authorId then 1 else 0) +
        (if c = authorId then 1 else 0)) ∧
    ((emitToFollowers follows authorId eventName payload).filter
      (fun e => e.room = authorId)).length = 1 := by
  have hcount : ∀ c : String,
      ((emitToFollowers follows authorId eventName payload).filter
        (fun e => e.room = c)).length =
      (if followsEdge follows c authorId then 1 else 0) +
        (if c = authorId then 1 else 0) := ?_
  case _ =>
    refine ⟨hcount, ?_⟩
    rw [hcount authorId, if_neg hnoself, if_pos rfl]
  intro c
  rw [emitToFollowers, List.filter_append, List.length_append]
  rw [filter_map_room_length _ (fun f => f.followerId) _ (fun x => rfl) c]
  rw [List.filter_filter]
  have hp : ∀ f : FollowRow,
      (decide (f.followerId = c) && decide (f.followingId = authorId)) = true →
      (fun g : FollowRow => (g.followerId, g.followingId)) f = (c, authorId) := by
    intro f hf
    simp only [Bool.and_eq_true, decide_eq_true_eq] at hf
    simp [hf.1, hf.2]
  rw [length_filter_nodup_key follows (fun f => (f.followerId, f.followingId))
    _ (c, authorId) hnd hp]
  have hiff : (∃ f ∈ follows,
      (decide (f.followerId = c) && decide (f.followingId = authorId)) = true) ↔
      followsEdge follows c authorId := by
    simp [followsEdge, Bool.and_eq_true, decide_eq_true_eq]
  have h2 : (([{ room := authorId, event := eventName, payload := payload }] :
      List (Emission P)).filter (fun e => e.room = c)).length =
      if c = authorId then 1 else 0 := by
    by_cases h : c = authorId
    · simp [List.filter_cons, h]
    · have hne : ¬ (authorId = c) := fun hh => h hh.symm
      simp [List.filter_cons, hne, h]
  rw [h2]
  congr 1
  exact if_congr hiff rfl rfl

theorem c4_fanout_audience_witness :
    ((emitToFollowers [{ followerId := "A", followingId := "U" },
        { followerId := "B", followingId := "U" }] "U" "ev" (0 : ℕ)).filter
      (fun e => e.room = "A")).length = 1 ∧
    ((emitToFollowers [{ followerId := "A", followingId := "U" },
        { followerId := "B", followingId := "U" }] "U" "ev" (0 : ℕ)).filter
      (fun e => e.room = "B")).length = 1 ∧
    ((emitToFollowers [{ followerId := "A", followingId := "U" },
        { followerId := "B", followingId := "U" }] "U" "ev" (0 : ℕ)).filter
      (fun e => e.room = "U")).length = 1 ∧
    ((emitToFollowers [{ followerId := "A", followingId := "U" },
        { followerId := "B", followingId := "U" }] "U" "ev" (0 : ℕ)).filter
      (fun e => e.room = "C")).length = 0 :=
  ⟨((c4_fanout_audience _ "U" "ev" ℕ 0 (by decide) (by decide)).1 "A").trans
      (by decide),
   ((c4_fanout_audience _ "U" "ev" ℕ 0 (by decide) (by decide)).1 "B").trans
      (by decide),
   (c4_fanout_audience _ "U" "ev" ℕ 0 (by decide) (by decide)).2,
   ((c4_fanout_audience _ "U" "ev" ℕ 0 (by decide) (by decide)).1 "C").trans
      (by decide)⟩

/-- C3: downstream fan-out and notification failures never fail the
triggering write: `emitToFollowers` swallows every failure of its body
(returning normally with no emissions), and `updateBugStatus` never answers
500 whatever the failure oracle says — its guarded `createNotification`
call is unreachable (the same condition already returned 403), so no
notification row is ever written by it either. -/
theorem c3_downstream_failures_isolated (fm : FailureModel) :
    (∀ (P : Type) (follows : List FollowRow) (authorId ev : String) (p : P),
      ∃ es, emitToFollowersCaught fm follows authorId ev p = Except.ok es) ∧
    (∀ (st : Store) (notifRows : List NotificationRow)
        (bugId currentUserId status : String) (now : Int) (newNotifId : String),
      (updateBugStatus fm st notifRows bugId currentUserId status now
        newNotifId).1 ≠ BugStatusResp.serverError500 ∧
      (updateBugStatus fm st notifRows bugId currentUserId status now
        newNotifId).2.2 = notifRows) := by
  constructor
  · intro P follows authorId ev p
    cases h : emitToFollowersBody fm follows authorId ev p with
    | ok es => exact ⟨es, by rw [emitToFollowersCaught, h]⟩
    | error e => exact ⟨[], by rw [emitToFollowersCaught, h]⟩
  · intro st notifRows bugId uid status now newId
    rcases hh : (st.bugs.filter (fun b => b.id = bugId)).head? with _ | bug
    · simp only [updateBugStatus, hh]
      exact ⟨by simp, by simp⟩
    · simp only [updateBugStatus, hh]
      split_ifs with h1 h2
      · exact ⟨by simp, by simp⟩
      · exact ⟨by simp, by simp⟩
      · exact ⟨by simp, by simp⟩

/-! ## Lemmas: the two branches of getFeed -/

theorem getFeed_fallback (st : Store) (userId : String) (page limit : ℕ)
    (now : Int)
    (hcond : (mergedFeedItems st userId limit now).length = 0 ∧ page = 1) :
    getFeed st userId page limit now =
      { data := fallbackItems st ((page - 1) * limit) limit
        total := (fallbackItems st ((page - 1) * limit) limit).length
        page := page
        hasMore := decide
          ((fallbackItems st ((page - 1) * limit) limit).length = limit) } := by
  simp only [getFeed]
  rw [if_pos hcond]

theorem getFeed_personalized (st : Store) (userId : String) (page limit : ℕ)
    (now : Int)
    (hcond : ¬ ((mergedFeedItems st userId limit now).length = 0 ∧ page = 1)) :
    getFeed st userId page limit now =
      { data := ((sortDesc FeedItem.createdAt
          (mergedFeedItems st userId limit now)).drop
          ((page - 1) * limit)).take limit
        total := (sortDesc FeedItem.createdAt
          (mergedFeedItems st userId limit now)).length
        page := page
        hasMore := decide ((page - 1) * limit + limit <
          (sortDesc FeedItem.createdAt
            (mergedFeedItems st userId limit now)).length) } := by
  simp only [getFeed]
  rw [if_neg hcond]

/-- C6: the three candidate queries of `getFeed` request at most
`⌈0.7·limit⌉`, `⌈0.2·limit⌉` and `⌈0.1·limit⌉` rows respectively (the
`take` arguments computed with JavaScript float arithmetic stay below the
exact-arithmetic ceilings for any limit up to `2^32`), and the row lists
obtained are no longer than those arguments. -/
theorem c6_proportional_quota (limit : ℕ) (h1 : 1 ≤ limit)
    (h2 : limit ≤ 2 ^ 32) :
    ((snippetTake limit : ℤ) ≤ ⌈(7:ℚ)/10 * limit⌉ ∧
     (docTake limit : ℤ) ≤ ⌈(2:ℚ)/10 * limit⌉ ∧
     (bugTake limit : ℤ) ≤ ⌈(1:ℚ)/10 * limit⌉) ∧
    ∀ (st : Store) (userId : String) (now : Int),
      (feedSnippetRows st userId limit).length ≤ snippetTake limit ∧
      (feedDocRows st userId limit).length ≤ docTake limit ∧
      (feedBugRows st userId limit now).length ≤ bugTake limit :=
  ⟨⟨snippetTake_le limit h1 h2, docTake_le limit h1 h2,
    bugTake_le limit h1 h2⟩,
   fun _ _ _ =>
    ⟨List.length_take_le _ _, List.length_take_le _ _,
     List.length_take_le _ _⟩⟩

theorem c6_proportional_quota_witness :
    (1 ≤ 10 ∧ 10 ≤ 2 ^ 32) ∧
    (snippetTake 10 = 7 ∧ docTake 10 = 2 ∧ bugTake 10 = 1) ∧
    ((snippetTake 10 : ℤ) ≤ ⌈(7:ℚ)/10 * (10:ℕ)⌉ ∧
     (docTake 10 : ℤ) ≤ ⌈(2:ℚ)/10 * (10:ℕ)⌉ ∧
     (bugTake 10 : ℤ) ≤ ⌈(1:ℚ)/10 * (10:ℕ)⌉) :=
  ⟨⟨by norm_num, by norm_num⟩, ⟨rfl, rfl, rfl⟩,
   (c6_proportional_quota 10 (by norm_num) (by norm_num)).1⟩

/-- C10: the merged pre-pagination list never exceeds
`⌈0.7·limit⌉ + ⌈0.2·limit⌉ + ⌈0.1·limit⌉` items; with the default
`limit = 10` the personalized path therefore never reports `hasMore`
(it can only be true on the fallback path), and every page ≥ 2 returns an
empty item list. -/
theorem c10_merged_bound (st : Store) (userId : String) (page limit : ℕ)
    (now : Int) (h1 : 1 ≤ limit) (h2 : limit ≤ 2 ^ 32) :
    (((mergedFeedItems st userId limit now).length : ℤ) ≤
      ⌈(7:ℚ)/10 * limit⌉ + ⌈(2:ℚ)/10 * limit⌉ + ⌈(1:ℚ)/10 * limit⌉) ∧
    ((getFeed st userId page 10 now).hasMore = true →
      mergedFeedItems st userId 10 now = [] ∧ page = 1) ∧
    (2 ≤ page → (getFeed st userId page 10 now).data = []) := by
  have hm10 : (mergedFeedItems st userId 10 now).length ≤ 10 := by
    have h := mergedFeedItems_length_le st userId 10 now
    rw [snippetTake_ten, docTake_ten, bugTake_ten] at h
    omega
  refine ⟨?_, ?_, ?_⟩
  · have hA := snippetTake_le limit h1 h2
    have hB := docTake_le limit h1 h2
    have hC := bugTake_le limit h1 h2
    have hlen := mergedFeedItems_length_le st userId limit now
    have hcast : ((mergedFeedItems st userId limit now).length : ℤ) ≤
        (snippetTake limit : ℤ) + docTake limit + bugTake limit := by
      push_cast
      exact_mod_cast hlen
    omega
  · intro htrue
    by_cases hcond : (mergedFeedItems st userId 10 now).length = 0 ∧ page = 1
    · exact ⟨List.length_eq_zero.1 hcond.1, hcond.2⟩
    · exfalso
      rw [getFeed_personalized st userId page 10 now hcond] at htrue
      simp only [decide_eq_true_eq] at htrue
      rw [sortDesc_length] at htrue
      omega
  · intro hp
    have hcond : ¬ ((mergedFeedItems st userId 10 now).length = 0 ∧ page = 1) := by
      intro hc
      omega
    rw [getFeed_personalized st userId page 10 now hcond]
    simp only []
    have hdrop : (sortDesc FeedItem.createdAt
        (mergedFeedItems st userId 10 now)).drop ((page - 1) * 10) = [] := by
      apply List.drop_eq_nil_of_le
      rw [sortDesc_length]
      have : 10 ≤ (page - 1) * 10 := by omega
      omega
    rw [hdrop, List.take_nil]

theorem c10_merged_bound_witness :
    (getFeed { follows := [], snippets := [], docs := [], bugs := [],
               likes := [], bookmarks := [], comments := [] }
      "v" 2 10 0).data = [] :=
  (c10_merged_bound _ "v" 2 10 0 (by norm_num) (by norm_num)).2.2 (by norm_num)

/-- C8: every bug item of any `getFeed` response satisfies
`expiresAt > now` at query time — the bug query filters on
`expiresAt > now` itself, independently of the hourly cleanup sweep, and
the fallback path returns only snippets. -/
theorem c8_active_bug_visibility (st : Store) (userId : String)
    (page limit : ℕ) (now : Int) :
    ∀ i ∈ (getFeed st userId page limit now).data,
      i.type = ContentKind.bug → ∃ e, i.expiresAt = some e ∧ now < e := by
  intro i hi htype
  by_cases hcond : (mergedFeedItems st userId limit now).length = 0 ∧ page = 1
  · rw [getFeed_fallback st userId page limit now hcond] at hi
    simp only [] at hi
    rw [fallbackItems] at hi
    obtain ⟨s, _, hrfl⟩ := List.mem_map.1 hi
    exfalso
    rw [← hrfl] at htype
    simp [publicSnippetToItem] at htype
  · rw [getFeed_personalized st userId page limit now hcond] at hi
    simp only [] at hi
    have hi2 : i ∈ sortDesc FeedItem.createdAt
        (mergedFeedItems st userId limit now) :=
      List.drop_subset _ _ (List.take_subset _ _ hi)
    have hi3 : i ∈ mergedFeedItems st userId limit now :=
      (mem_sortDesc _ _ i).1 hi2
    rw [mergedFeedItems] at hi3
    rcases List.mem_append.1 hi3 with hrest | hbug
    · rcases List.mem_append.1 hrest with hsn | hdc
      · obtain ⟨s, _, hrfl⟩ := List.mem_map.1 hsn
        exfalso
        rw [← hrfl] at htype
        simp [snippetToItem] at htype
      · obtain ⟨d, _, hrfl⟩ := List.mem_map.1 hdc
        exfalso
        rw [← hrfl] at htype
        simp [docToItem] at htype
    · obtain ⟨b, hb, hrfl⟩ := List.mem_map.1 hbug
      rw [feedBugRows] at hb
      have hb2 : b ∈ sortDesc BugRow.createdAt
          (st.bugs.filter (fun bb =>
            bb.authorId ∈ followingIdsOf st userId ∧ now < bb.expiresAt)) :=
        List.take_subset _ _ hb
      have hb3 := (mem_sortDesc _ _ b).1 hb2
      have hb4 := List.mem_filter.1 hb3
      have hprop : b.authorId ∈ followingIdsOf st userId ∧
          now < b.expiresAt := by
        simpa using hb4.2
      refine ⟨b.expiresAt, ?_, hprop.2⟩
      rw [← hrfl]
      rfl

theorem c8_active_bug_visibility_witness :
    ∃ e, ({ type := ContentKind.bug, id := "b1", authorId := "a",
            createdAt := 5, isPublic := none, expiresAt := some 10,
            isLiked := some false, isBookmarked := some false,
            likesCount := 0, commentsCount := 0,
            bookmarksCount := 0 } : FeedItem).expiresAt = some e ∧
      (0 : Int) < e :=
  c8_active_bug_visibility
    { follows := [{ followerId := "v", followingId := "a" }],
      snippets := [], docs := [],
      bugs := [{ id := "b1", authorId := "a", status := "OPEN",
                 createdAt := 5, expiresAt := 10 }],
      likes := [], bookmarks := [], comments := [] }
    "v" 1 10 0 _ (by decide) rfl

/-- C5: when the merged personalized sequence is empty and page 1 is
requested, `getFeed` answers with the public fallback feed: the most recent
public snippets system-wide, carrying no `isLiked`/`isBookmarked` flags; it
is non-empty whenever at least one public snippet exists. -/
theorem c5_empty_feed_fallback (st : Store) (userId : String) (limit : ℕ)
    (now : Int)
    (hmerge : mergedFeedItems st userId limit now = [])
    (hlim : 1 ≤ limit)
    (hpub : ∃ s ∈ st.snippets, s.isPublic = true) :
    (getFeed st userId 1 limit now).data = fallbackItems st 0 limit ∧
    (getFeed st userId 1 limit now).data ≠ [] ∧
    ∀ i ∈ (getFeed st userId 1 limit now).data,
      i.isLiked = none ∧ i.isBookmarked = none ∧
      i.type = ContentKind.snippet := by
  have hcond : (mergedFeedItems st userId limit now).length = 0 ∧
      (1 : ℕ) = 1 := ⟨by rw [hmerge]; rfl, rfl⟩
  have hfeed := getFeed_fallback st userId 1 limit now hcond
  have hskip : ((1 : ℕ) - 1) * limit = 0 := by omega
  rw [hskip] at hfeed
  refine ⟨by rw [hfeed], ?_, ?_⟩
  · rw [hfeed]
    simp only []
    intro hnil
    have hlen0 : (fallbackItems st 0 limit).length = 0 := by
      rw [hnil]
      rfl
    rw [fallbackItems, List.length_map, List.drop_zero, List.length_take,
      sortDesc_length] at hlen0
    obtain ⟨s, hs, hsp⟩ := hpub
    have hmem : s ∈ st.snippets.filter (fun x => x.isPublic) :=
      List.mem_filter.2 ⟨hs, hsp⟩
    have hlen1 : 0 < (st.snippets.filter (fun x => x.isPublic)).length :=
      List.length_pos.2 (List.ne_nil_of_mem hmem)
    omega
  · intro i hi
    rw [hfeed] at hi
    simp only [] at hi
    rw [fallbackItems] at hi
    obtain ⟨s, _, hrfl⟩ := List.mem_map.1 hi
    rw [← hrfl]
    exact ⟨rfl, rfl, rfl⟩

theorem c5_empty_feed_fallback_witness :
    (getFeed { follows := [],
               snippets := [{ id := "s1", authorId := "a", isPublic := true,
                              createdAt := 3 }],
               docs := [], bugs := [], likes := [], bookmarks := [],
               comments := [] } "v" 1 10 0).data ≠ [] :=
  (c5_empty_feed_fallback _ "v" 10 0 (by decide) (by norm_num)
    ⟨{ id := "s1", authorId := "a", isPublic := true, createdAt := 3 },
     by decide, rfl⟩).2.1

/-- C1: the three candidate sets are tagged, concatenated
(snippets, docs, bugs), stable-sorted by `createdAt` descending, and
paginated as one merged sequence: with one followed author owning snippet
S1 (t1), doc D1 (t2), active bug B1 (t3) and t3 > t2 > t1, page 1 of the
feed is exactly [B1, D1, S1]. -/
theorem c1_feed_merge_ordering (viewer author sid did bid : String)
    (t1 t2 t3 texp now : Int) (h12 : t1 < t2) (h23 : t2 < t3)
    (hexp : now < texp) :
    ((getFeed (c1Store viewer author sid did bid t1 t2 t3 texp) viewer 1 10
      now).data.map (fun i => (i.id, i.type))) =
      [(bid, ContentKind.bug), (did, ContentKind.doc),
       (sid, ContentKind.snippet)] := by
  have hnle1 : ¬ (t3 ≤ t2) := not_le.mpr h23
  have hnle2 : ¬ (t3 ≤ t1) := not_le.mpr (lt_trans h12 h23)
  have hnle3 : ¬ (t2 ≤ t1) := not_le.mpr h12
  have hmerged : mergedFeedItems (c1Store viewer author sid did bid t1 t2 t3
      texp) viewer 10 now =
      [snippetToItem (c1Store viewer author sid did bid t1 t2 t3 texp) viewer
        { id := sid, authorId := author, isPublic := true, createdAt := t1 },
       docToItem (c1Store viewer author sid did bid t1 t2 t3 texp) viewer
        { id := did, authorId := author, isPublic := true, createdAt := t2 },
       bugToItem (c1Store viewer author sid did bid t1 t2 t3 texp) viewer
        { id := bid, authorId := author, status := "OPEN", createdAt := t3,
          expiresAt := texp }] := by
    simp [mergedFeedItems, feedSnippetRows, feedDocRows, feedBugRows,
      c1Store, followingIdsOf, sortDesc, List.insertionSort,
      List.orderedInsert, snippetTake_ten, docTake_ten, bugTake_ten, hexp]
  have hcond : ¬ ((mergedFeedItems (c1Store viewer author sid did bid t1 t2
      t3 texp) viewer 10 now).length = 0 ∧ (1 : ℕ) = 1) := by
    rw [hmerged]
    simp
  rw [getFeed_personalized _ _ _ _ _ hcond]
  simp only []
  rw [hmerged]
  simp [sortDesc, List.insertionSort, List.orderedInsert, hnle1, hnle2, hnle3,
    snippetToItem, docToItem, bugToItem]

theorem c1_feed_merge_ordering_witness :
    ((getFeed (c1Store "v" "a" "s1" "d1" "b1" 1 2 3 10) "v" 1 10
      0).data.map (fun i => (i.id, i.type))) =
      [("b1", ContentKind.bug), ("d1", ContentKind.doc),
       ("s1", ContentKind.snippet)] :=
  c1_feed_merge_ordering "v" "a" "s1" "d1" "b1" 1 2 3 10 0 (by norm_num)
    (by norm_num) (by norm_num)
